import Mathlib

/-!
Verification of the xsimd core: the capability-indexed type-resolution
system (`simd_traits` / `revert_simd_traits` / `simd_return_type`, from
include/xsimd/types/xsimd_traits.hpp) and the generic fallback kernel
layer (include/xsimd/arch/generic/xsimd_generic_memory.hpp), shallowly
embedded in Lean 4.

C++ types are modelled by the inductive `CType` (a scalar, a `batch<T,N>`
or a `batch_bool<T,N>`); the build-time width macros
(XSIMD_BATCH_INT8_SIZE, ..., XSIMD_BATCH_DOUBLE_SIZE) are modelled by a
`Config` record whose two `Option` fields mirror the two `#ifdef` blocks
(XSIMD_BATCH_FLOAT_SIZE and XSIMD_BATCH_DOUBLE_SIZE) guarding the trait
specializations.  Batches are modelled as Lean lists of lane values;
C-style writes into stack buffers are modelled by `List.set` folds so
that uninitialized buffer cells are observable as `Option.none`.
-/

namespace Xsimd

/-- The scalar element types that appear in xsimd_traits.hpp.
`i8`/`u8` stand for the 8-bit signed/unsigned character types
(`char` / `int8_t`, `unsigned char` / `uint8_t`), `cf32`/`cf64` for
`std::complex<float>` / `std::complex<double>`, `cbool` for `bool`,
and `other n` for any further scalar type with no specialization. -/
inductive Scalar where
  | i8 | u8 | i32 | i64 | f32 | f64 | cf32 | cf64 | cbool
  | other (n : Nat)
deriving DecidableEq, Repr

/-- A C++ type as it occurs in the trait machinery: a plain scalar,
a `batch<T, N>`, or a `batch_bool<T, N>`. -/
inductive CType where
  | scalar (t : Scalar)
  | batch (t : Scalar) (n : Nat)
  | batchBool (t : Scalar) (n : Nat)
deriving DecidableEq, Repr

/-- The widths fixed by the XSIMD_BATCH_INT8/INT32/INT64/FLOAT_SIZE
macros, which are always defined together (one `#if` branch per
instruction set). -/
structure FloatSizes where
  int8Size : Nat
  int32Size : Nat
  int64Size : Nat
  floatSize : Nat
deriving DecidableEq, Repr

/-- A build configuration: `floatBlock` is `some` exactly when
XSIMD_BATCH_FLOAT_SIZE (and the three integer width macros) is defined,
`doubleSize` is `some` exactly when XSIMD_BATCH_DOUBLE_SIZE is. -/
structure Config where
  floatBlock : Option FloatSizes
  doubleSize : Option Nat
deriving DecidableEq, Repr

/-- Widths of the AVX512 branch of xsimd_traits.hpp. -/
def avx512Config : Config := ⟨some ⟨64, 16, 8, 16⟩, some 8⟩

/-- Widths of the AVX branch. -/
def avxConfig : Config := ⟨some ⟨32, 8, 4, 8⟩, some 4⟩

/-- Widths of the SSE2 branch. -/
def sse2Config : Config := ⟨some ⟨16, 4, 2, 4⟩, some 2⟩

/-- Widths of the ARMv7 NEON branch: XSIMD_BATCH_DOUBLE_SIZE stays
undefined. -/
def neonConfig : Config := ⟨some ⟨16, 4, 2, 4⟩, none⟩

/-- Widths of the ARMv8-64 NEON branch: the extra `#if` at the end of
the macro block additionally defines XSIMD_BATCH_DOUBLE_SIZE = 2. -/
def neon64Config : Config := ⟨some ⟨16, 4, 2, 4⟩, some 2⟩

/-- No instruction set enabled: no width macro is defined, no trait
specialization exists. -/
def noSimdConfig : Config := ⟨none, none⟩

/-- The record computed by `simd_traits<T>`: member types `type` and
`bool_type` and the static member `size`. -/
structure SimdTraitsRec where
  type : CType
  bool_type : CType
  size : Nat
deriving DecidableEq, Repr

/-- `simd_traits<T>`.  The primary template maps any type to itself with
`bool_type = bool` and `size = 1`; the specializations (present only
when the corresponding width macro is defined) map the registered
scalar types to their batch types.  `bool_type` of a specialization is
`simd_batch_traits<type>::batch_bool_type`; `simd_batch_traits` is not
part of the two embedded files, so (modelled from the spec) the bool
companion of `batch<T, N>` is taken to be `batch_bool<T, N>`. -/
def simd_traits (cfg : Config) (t : CType) : SimdTraitsRec :=
  match t, cfg.floatBlock, cfg.doubleSize with
  | .scalar .i8, some fs, _ =>
      ⟨.batch .i8 fs.int8Size, .batchBool .i8 fs.int8Size, fs.int8Size⟩
  | .scalar .u8, some fs, _ =>
      ⟨.batch .u8 fs.int8Size, .batchBool .u8 fs.int8Size, fs.int8Size⟩
  | .scalar .i32, some fs, _ =>
      ⟨.batch .i32 fs.int32Size, .batchBool .i32 fs.int32Size, fs.int32Size⟩
  | .scalar .i64, some fs, _ =>
      ⟨.batch .i64 fs.int64Size, .batchBool .i64 fs.int64Size, fs.int64Size⟩
  | .scalar .f32, some fs, _ =>
      ⟨.batch .f32 fs.floatSize, .batchBool .f32 fs.floatSize, fs.floatSize⟩
  | .scalar .cf32, some fs, _ =>
      ⟨.batch .cf32 fs.floatSize, .batchBool .cf32 fs.floatSize, fs.floatSize⟩
  | .scalar .f64, _, some d =>
      ⟨.batch .f64 d, .batchBool .f64 d, d⟩
  | .scalar .cf64, _, some d =>
      ⟨.batch .cf64 d, .batchBool .cf64 d, d⟩
  | t, _, _ => ⟨t, .scalar .cbool, 1⟩

/-- `revert_simd_traits<V>`.  The primary template maps any type to
itself with `size = simd_traits<V>::size`; one specialization per
registered batch type (the batch of the macro-given width only)
inverts the forward map. -/
def revert_simd_traits (cfg : Config) (t : CType) : CType × Nat :=
  let primary : CType × Nat := (t, (simd_traits cfg t).size)
  match t, cfg.floatBlock, cfg.doubleSize with
  | .batch .i8 n, some fs, _ =>
      if n = fs.int8Size then (.scalar .i8, (simd_traits cfg (.scalar .i8)).size)
      else primary
  | .batch .u8 n, some fs, _ =>
      if n = fs.int8Size then (.scalar .u8, (simd_traits cfg (.scalar .u8)).size)
      else primary
  | .batch .i32 n, some fs, _ =>
      if n = fs.int32Size then (.scalar .i32, (simd_traits cfg (.scalar .i32)).size)
      else primary
  | .batch .i64 n, some fs, _ =>
      if n = fs.int64Size then (.scalar .i64, (simd_traits cfg (.scalar .i64)).size)
      else primary
  | .batch .f32 n, some fs, _ =>
      if n = fs.floatSize then (.scalar .f32, (simd_traits cfg (.scalar .f32)).size)
      else primary
  | .batch .cf32 n, some fs, _ =>
      if n = fs.floatSize then (.scalar .cf32, (simd_traits cfg (.scalar .cf32)).size)
      else primary
  | .batch .f64 n, _, some d =>
      if n = d then (.scalar .f64, (simd_traits cfg (.scalar .f64)).size)
      else primary
  | .batch .cf64 n, _, some d =>
      if n = d then (.scalar .cf64, (simd_traits cfg (.scalar .cf64)).size)
      else primary
  | _, _, _ => primary

/-- `detail::is_complex<T>`: true exactly for the complex scalar
types. -/
def is_complex : CType → Bool
  | .scalar .cf32 => true
  | .scalar .cf64 => true
  | _ => false

/-- `detail::simd_condition<T1, T2>::value`: `T1` equals `T2`, or `T1`
is one of float, double, int64_t, int32_t, char, unsigned char, or a
complex type. -/
def simd_condition (t1 t2 : CType) : Bool :=
  decide (t1 = t2) ||
  decide (t1 = .scalar .f32) ||
  decide (t1 = .scalar .f64) ||
  decide (t1 = .scalar .i64) ||
  decide (t1 = .scalar .i32) ||
  decide (t1 = .scalar .i8) ||
  decide (t1 = .scalar .u8) ||
  is_complex t1

/-- `simd_return_type<T1, T2> = detail::simd_return_type_impl<T1, T2>::type`.
SFINAE definedness is modelled by `Option`: `none` means the
instantiation has no `type` member, i.e. fails to compile.  The three
partial specializations (batch×batch, batch×batch_bool,
batch_bool×batch_bool) test `simd_condition` on the element types and
keep the second operand's declared width; the primary template tests
`simd_condition` on the full operand types and resolves to
`simd_type<T2> = simd_traits<T2>::type`. -/
def simd_return_type (cfg : Config) (t1 t2 : CType) : Option CType :=
  match t1, t2 with
  | .batch a _, .batch b n2 =>
      if simd_condition (.scalar a) (.scalar b) then some (.batch b n2) else none
  | .batch a _, .batchBool b n2 =>
      if simd_condition (.scalar a) (.scalar b) then some (.batchBool b n2) else none
  | .batchBool a _, .batchBool b n2 =>
      if simd_condition (.scalar a) (.scalar b) then some (.batchBool b n2) else none
  | t1, t2 =>
      if simd_condition t1 t2 then some (simd_traits cfg t2).type else none

/-- Whether a scalar type has a `simd_traits` specialization under the
given configuration (i.e. whether its guarding width macro is
defined). -/
def registered (cfg : Config) (t : Scalar) : Bool :=
  match t with
  | .i8 | .u8 | .i32 | .i64 | .f32 | .cf32 => cfg.floatBlock.isSome
  | .f64 | .cf64 => cfg.doubleSize.isSome
  | _ => false

/-- The element type of an operand: a scalar is its own element type, a
batch or batch_bool contributes its lane type. -/
def elemType : CType → Scalar
  | .scalar t => t
  | .batch t _ => t
  | .batchBool t _ => t

/-- The operand-shape pairs handled by the three partial
specializations of `simd_return_type_impl`. -/
def specialized_shape : CType → CType → Bool
  | .batch _ _, .batch _ _ => true
  | .batch _ _, .batchBool _ _ => true
  | .batchBool _ _, .batchBool _ _ => true
  | _, _ => false

/-!
Generic kernel layer (xsimd_generic_memory.hpp).  A batch value is a
`List` of its lane values; a C stack buffer of unwritten cells is a
`List (Option _)` initialized to `none`, and each C array write is a
`List.set`, so a lane the code never writes stays `none`.
-/

/-- `kernel::extract_pair(self, other, i, generic)`.  `size` is the
common batch width; the scratch buffers `self_buffer` / `other_buffer`
hold the spilled lanes, and `concat_buffer` starts uninitialized.  The
single fused loop runs `j = 0, ..., size-i-1`, writing
`concat_buffer[j] = other_buffer[i+j]` and, when `j < i`,
`concat_buffer[size-1-j] = self_buffer[i-1-j]`. -/
def extract_pair [Inhabited α] (self other : List α) (i : Nat) : List (Option α) :=
  let size := self.length
  (List.range (size - i)).foldl
    (fun buf j =>
      let buf := buf.set j (some (other.getD (i + j) default))
      if j < i then buf.set (size - 1 - j) (some (self.getD (i - 1 - j) default))
      else buf)
    (List.replicate size none)

/-- `kernel::store(batch_bool self, bool* mem, generic)`: materialize
the mask as a batch of the element type (the conversion
`batch<T,A>(batch_bool)` is not in the embedded files, so it is the
parameter `mat`, modelled from the spec as an arbitrary per-lane
materialization), store it to a scratch buffer, then write each lane
of `mem` as `bool(buffer[i])`, i.e. the truthiness (≠ 0) of the
materialized value. -/
def store (mat : Bool → Int) (self : List Bool) (mem : List Bool) : List Bool :=
  let buffer := self.map mat
  (List.range self.length).foldl
    (fun m i => m.set i (decide (buffer.getD i 0 ≠ 0)))
    mem

/-- The converting `kernel::store_aligned<A>(T_out* mem, batch<T_in> self,
generic)`: spill `self` to a `T_in` scratch buffer, then `std::copy`
the buffer into `mem`, converting each lane by the element conversion
`conv` (the `T_in` → `T_out` assignment).  The first `size` cells of
`mem` are overwritten, the rest are untouched. -/
def store_aligned (conv : α → β) (self : List α) (mem : List β) : List β :=
  self.map conv ++ mem.drop self.length

/-- The converting `kernel::store_unaligned<A>(T_out* mem, batch<T_in>
self, generic)`: the body is exactly
`return store_aligned<A>(mem, self, generic{});`. -/
def store_unaligned (conv : α → β) (self : List α) (mem : List β) : List β :=
  store_aligned conv self mem

/-- Split a list into the sublists of its even-position and
odd-position elements; for an interleaved complex buffer these are the
real plane and the imaginary plane. -/
def deinterleave : List α → List α × List α
  | [] => ([], [])
  | [x] => ([x], [])
  | x :: y :: rest =>
      let p := deinterleave rest
      (x :: p.1, y :: p.2)

/-- Merge two lists by alternating their elements, starting with the
first; the inverse of `deinterleave`. -/
def interleave : List α → List α → List α
  | x :: xs, y :: ys => x :: y :: interleave xs ys
  | xs, _ => xs

/-- A complex batch in register form: two parallel real batches, the
real plane and the imaginary plane. -/
structure ComplexBatch (α : Type) where
  re : List α
  im : List α
deriving DecidableEq, Repr

/-- Modelled from the spec: `detail::load_complex(hi, lo)` has no
generic definition (its generic overload is a `static_assert`); every
backend composes the two contiguous memory halves `hi` (first) and
`lo` (second) of the interleaved buffer into the split-plane register
form, reals at even offsets, imaginaries at odd offsets. -/
def load_complex (hi lo : List α) : ComplexBatch α :=
  ⟨(deinterleave (hi ++ lo)).1, (deinterleave (hi ++ lo)).2⟩

/-- Modelled from the spec: `detail::complex_low(src)` has no generic
definition; it is the inverse decomposition of `load_complex`,
returning the first interleaved half (one real batch of lanes). -/
def complex_low (z : ComplexBatch α) : List α :=
  (interleave z.re z.im).take z.re.length

/-- Modelled from the spec: `detail::complex_high(src)` has no generic
definition; it is the inverse decomposition of `load_complex`,
returning the second interleaved half. -/
def complex_high (z : ComplexBatch α) : List α :=
  (interleave z.re z.im).drop z.re.length

/-- `kernel::load_complex_aligned(mem, ..., generic)`: reinterpret the
complex buffer as reals, load the first `real_batch::size = W` reals
as `hi` and the next `W` as `lo`, and hand both to the backend
composer `detail::load_complex`. -/
def load_complex_aligned (mem : List α) (W : Nat) : ComplexBatch α :=
  let hi := mem.take W
  let lo := (mem.drop W).take W
  load_complex hi lo

/-- `kernel::store_complex_aligned(dst, src, generic)`: decompose via
`detail::complex_high` / `detail::complex_low` and store the low half
first, the high half at offset `real_batch::size`. -/
def store_complex_aligned (z : ComplexBatch α) : List α :=
  let hi := complex_high z
  let lo := complex_low z
  lo ++ hi

/-! Helper lemmas. -/

theorem isSome_ite_some {c : Prop} [Decidable c] (x : α) :
    (if c then some x else none).isSome = true ↔ c := by
  split <;> simp_all

/-- Folding `set` over `range n` overwrites the first `n` cells of the
buffer with `f 0, ..., f (n-1)` and leaves the rest unchanged. -/
theorem foldl_set_range (f : Nat → β) :
    ∀ (n : Nat) (buf : List β), n ≤ buf.length →
      (List.range n).foldl (fun b j => b.set j (f j)) buf
        = (List.range n).map f ++ buf.drop n := by
  intro n
  induction n with
  | zero => intro buf _; simp
  | succ n ih =>
    intro buf h
    have hn : n < buf.length := Nat.lt_of_lt_of_le (Nat.lt_succ_self n) h
    rw [List.range_succ, List.foldl_append, ih buf (Nat.le_of_lt hn)]
    simp only [List.foldl_cons, List.foldl_nil]
    rw [List.set_append, if_neg (by simp)]
    simp only [List.length_map, List.length_range, Nat.sub_self,
      List.drop_eq_getElem_cons hn, List.set_cons_zero, List.range_succ,
      List.map_append, List.map_cons, List.map_nil, List.append_assoc,
      List.cons_append, List.nil_append]

/-- Mapping over `range l.length` by reading `l` at each index is just
mapping over `l`. -/
theorem map_range_getD [Inhabited α] (g : α → β) (l : List α) (d : α) :
    (List.range l.length).map (fun j => g (l.getD j d)) = l.map g := by
  apply List.ext_getElem
  · simp
  · intro k h1 h2
    simp only [List.getElem_map, List.getElem_range]
    rw [List.getD_eq_getElem l d (by simpa using h2)]

theorem interleave_deinterleave : ∀ (l : List α),
    interleave (deinterleave l).1 (deinterleave l).2 = l
  | [] => rfl
  | [_] => rfl
  | x :: y :: rest => by
      simp [deinterleave, interleave, interleave_deinterleave rest]

theorem is_complex_iff (t : CType) :
    is_complex t = true ↔ t = .scalar .cf32 ∨ t = .scalar .cf64 := by
  cases t with
  | scalar s => cases s <;> simp [is_complex]
  | batch s n => simp [is_complex]
  | batchBool s n => simp [is_complex]

/-- The scalar types that `simd_condition` admits as a first operand
besides an exact match: float, double, int64_t, int32_t, the two 8-bit
character types, and the complex types. -/
def admissible_scalars : List Scalar :=
  [.f32, .f64, .i64, .i32, .i8, .u8, .cf32, .cf64]

theorem simd_condition_iff (t1 t2 : CType) :
    simd_condition t1 t2 = true ↔
      t1 = t2 ∨ t1 ∈ admissible_scalars.map CType.scalar := by
  simp [simd_condition, is_complex_iff, admissible_scalars]
  tauto

/-! Claim theorems. -/

/-- C1: when the first operand's element type is admissible against the
second's (`simd_condition`), `simd_return_type` on batch×batch,
batch×batch_bool and batch_bool×batch_bool preserves the second
operand's declared width `n2` (it is not recomputed from the trait
map), producing `batch`/`batch_bool` of the second element type; and
for a scalar first operand, `simd_return_type<int32_t, batch<double,W>>`
is `batch<double,W>` for every width `W`, native or not. -/
theorem simd_return_type_width_preserving (cfg : Config) (a b : Scalar)
    (n1 n2 : Nat) (h : simd_condition (.scalar a) (.scalar b) = true) :
    simd_return_type cfg (.batch a n1) (.batch b n2) = some (.batch b n2) ∧
    simd_return_type cfg (.batch a n1) (.batchBool b n2) = some (.batchBool b n2) ∧
    simd_return_type cfg (.batchBool a n1) (.batchBool b n2) = some (.batchBool b n2) ∧
    simd_return_type cfg (.scalar .i32) (.batch .f64 n2) = some (.batch .f64 n2) := by
  refine ⟨?_, ?_, ?_, ?_⟩
  · simp [simd_return_type, h]
  · simp [simd_return_type, h]
  · simp [simd_return_type, h]
  · rcases cfg with ⟨_ | fs, _ | d⟩ <;>
      simp [simd_return_type, simd_condition, simd_traits, is_complex]

theorem simd_return_type_width_preserving_witness :
    simd_condition (.scalar .i32) (.scalar .f64) = true ∧
    (simd_return_type sse2Config (.batch .i32 5) (.batch .f64 3)
        = some (.batch .f64 3) ∧
      simd_return_type sse2Config (.batch .i32 5) (.batchBool .f64 3)
        = some (.batchBool .f64 3) ∧
      simd_return_type sse2Config (.batchBool .i32 5) (.batchBool .f64 3)
        = some (.batchBool .f64 3) ∧
      simd_return_type sse2Config (.scalar .i32) (.batch .f64 3)
        = some (.batch .f64 3)) :=
  ⟨by decide, simd_return_type_width_preserving sse2Config .i32 .f64 5 3 (by decide)⟩

/-- C2, counterexample: the claim says
`simd_return_type<batch<double,2>, batch<double,4>>` must fail to
compile, but the batch×batch specialization never compares the two
widths: the instantiation is well-formed and yields `batch<double,4>`. -/
theorem simd_return_type_mismatched_width_compiles :
    simd_return_type sse2Config (.batch .f64 2) (.batch .f64 4)
      = some (.batch .f64 4) := by decide

/-- C2, amended: for every element type `T` and distinct declared
widths `W1 ≠ W2`, `simd_return_type<batch<T,W1>, batch<T,W2>>` is
well-defined and resolves to `batch<T,W2>`: the mismatch is silently
reconciled to the second operand's declared width. -/
theorem simd_return_type_mismatched_width_second_wins (cfg : Config)
    (T : Scalar) (W1 W2 : Nat) (h : W1 ≠ W2) :
    simd_return_type cfg (.batch T W1) (.batch T W2) = some (.batch T W2) := by
  simp [simd_return_type, simd_condition]

theorem simd_return_type_mismatched_width_second_wins_witness :
    (2 : Nat) ≠ 4 ∧
    simd_return_type avxConfig (.batch .f64 2) (.batch .f64 4)
      = some (.batch .f64 4) :=
  ⟨by decide,
    simd_return_type_mismatched_width_second_wins avxConfig .f64 2 4 (by decide)⟩

/-- C3, counterexample: the claim says `simd_return_type` is defined
whenever the element types of the two operands are equal, but for a
scalar first operand against a batch of the same element type the
primary template tests `simd_condition` on the full types, which
fails: `simd_return_type<T, batch<T,8>>` for an unregistered scalar
`T` has equal element types yet no `type` member. -/
theorem simd_return_type_elementwise_counterexample :
    elemType (.scalar (.other 0)) = elemType (.batch (.other 0) 8) ∧
    simd_return_type sse2Config (.scalar (.other 0)) (.batch (.other 0) 8)
      = none := by decide

/-- C3, amended: `simd_return_type<T1,T2>` is defined exactly when —
for the three specialized operand shapes batch×batch, batch×batch_bool
and batch_bool×batch_bool — the element type of `T1` equals the
element type of `T2` or is one of float, double, int64, int32, the
8-bit signed and unsigned character types, or a complex type; for
every other shape combination the same condition is applied to the
full operand types `T1`, `T2` themselves (so e.g.
`batch<float,4> × float` or `short × batch<short,8>` fails to compile);
there is never a silent fallback result. -/
theorem simd_return_type_definedness (cfg : Config) (t1 t2 : CType) :
    (simd_return_type cfg t1 t2).isSome = true ↔
      if specialized_shape t1 t2 = true then
        elemType t1 = elemType t2 ∨ elemType t1 ∈ admissible_scalars
      else
        t1 = t2 ∨ t1 ∈ admissible_scalars.map CType.scalar := by
  have hmem : ∀ a : Scalar, (CType.scalar a ∈ admissible_scalars.map CType.scalar)
      ↔ a ∈ admissible_scalars := by
    intro a; simp [admissible_scalars]
  cases t1 with
  | scalar a =>
    cases t2 <;>
      simp [simd_return_type, specialized_shape, elemType, isSome_ite_some,
        simd_condition_iff, hmem]
  | batch a n =>
    cases t2 with
    | scalar b =>
      simp [simd_return_type, specialized_shape, isSome_ite_some,
        simd_condition_iff, admissible_scalars]
    | batch b m =>
      simp [simd_return_type, specialized_shape, elemType, isSome_ite_some,
        simd_condition_iff, hmem]
    | batchBool b m =>
      simp [simd_return_type, specialized_shape, elemType, isSome_ite_some,
        simd_condition_iff, hmem]
  | batchBool a n =>
    cases t2 with
    | scalar b =>
      simp [simd_return_type, specialized_shape, isSome_ite_some,
        simd_condition_iff, admissible_scalars]
    | batch b m =>
      simp [simd_return_type, specialized_shape, isSome_ite_some,
        simd_condition_iff, admissible_scalars]
    | batchBool b m =>
      simp [simd_return_type, specialized_shape, elemType, isSome_ite_some,
        simd_condition_iff, hmem]

/-- C4: the generic `extract_pair` matches the claimed rotation window
at `i = 1` (the spec's own example), but at `i = 3` (any `i` with
`2*i > W`) its single fused loop runs only `W - i` iterations, so the
interior result lanes are never written: the scratch cell stays
uninitialized (`none`) where the claim requires `self`'s low lanes. -/
theorem extract_pair_uninitialized_lanes :
    extract_pair ([0, 1, 2, 3] : List Nat) [10, 11, 12, 13] 1
      = [some 11, some 12, some 13, some 0] ∧
    extract_pair ([0, 1, 2, 3] : List Nat) [10, 11, 12, 13] 3
      = [some 13, none, none, some 2] := by decide

/-- C6: the trait map round-trips under every configuration: for every
scalar type `T`, `revert_simd_traits<simd_traits<T>::type>::type` is
`T` itself and its `size` equals `simd_traits<T>::size`, both for the
registered scalar types and for the identity fallback. -/
theorem revert_simd_traits_roundtrip (cfg : Config) (t : Scalar) :
    revert_simd_traits cfg (simd_traits cfg (.scalar t)).type
      = (.scalar t, (simd_traits cfg (.scalar t)).size) := by
  rcases cfg with ⟨_ | fs, _ | d⟩ <;> cases t <;>
    simp [simd_traits, revert_simd_traits]

/-- C7: for every scalar type with no registered specialization under
the configuration, `simd_traits` still resolves — to the width-1
identity record with `type = T`, `bool_type = bool`, `size = 1`; in
particular with no capability enabled at all every scalar maps to
itself with width 1, so a caller must inspect `size` to detect absence
of hardware support. -/
theorem simd_traits_fallback_identity (cfg : Config) (t : Scalar)
    (h : registered cfg t = false) :
    simd_traits cfg (.scalar t) = ⟨.scalar t, .scalar .cbool, 1⟩ ∧
    simd_traits noSimdConfig (.scalar t) = ⟨.scalar t, .scalar .cbool, 1⟩ := by
  constructor
  · rcases cfg with ⟨_ | fs, _ | d⟩ <;> cases t <;>
      simp_all [registered, simd_traits]
  · cases t <;> rfl

theorem simd_traits_fallback_identity_witness :
    registered sse2Config (.other 0) = false ∧
    (simd_traits sse2Config (.scalar (.other 0))
        = ⟨.scalar (.other 0), .scalar .cbool, 1⟩ ∧
      simd_traits noSimdConfig (.scalar (.other 0))
        = ⟨.scalar (.other 0), .scalar .cbool, 1⟩) :=
  ⟨by decide, simd_traits_fallback_identity sse2Config (.other 0) (by decide)⟩

/-- C9: the generic converting `store_unaligned` delegates to the
generic converting `store_aligned` with identical arguments, so the
two are extensionally equal: for every conversion, batch and memory
state the stored result is the same, and alignment never changes the
generic conversion-store path. -/
theorem store_unaligned_eq_store_aligned (conv : α → β) (self : List α)
    (mem : List β) :
    store_unaligned conv self mem = store_aligned conv self mem := rfl

/-- C5: for every interleaved complex buffer of `W` complex elements
(`2*W` reals), the generic complex store composed with the generic
complex load is the identity on memory: the load splits the buffer
into a first and a second real half of `W` lanes each and hands them
to the backend composer, and the store decomposes via
`complex_high`/`complex_low` and writes the low half first, which puts
every real back at its original offset. -/
theorem store_load_complex_roundtrip (W : Nat) (mem : List α)
    (h : mem.length = 2 * W) :
    store_complex_aligned (load_complex_aligned mem W) = mem := by
  have hlo : (mem.drop W).take W = mem.drop W :=
    List.take_of_length_le (by simp [h, Nat.two_mul])
  simp [store_complex_aligned, load_complex_aligned, load_complex,
    complex_low, complex_high, hlo, List.take_append_drop,
    interleave_deinterleave]

theorem store_load_complex_roundtrip_witness :
    ([1, 2, 3, 4] : List Int).length = 2 * 2 ∧
    store_complex_aligned (load_complex_aligned ([1, 2, 3, 4] : List Int) 2)
      = [1, 2, 3, 4] :=
  ⟨by decide, store_load_complex_roundtrip 2 [1, 2, 3, 4] (by decide)⟩

/-- C8: the generic boolean store writes `mem[k] = self[k]` for every
lane `k < W` and leaves the rest of `mem` untouched, for any
materialization of the mask into the element type that sends true
lanes to a nonzero value and false lanes to zero — i.e. independently
of the architecture's internal bit pattern for a true lane. -/
theorem store_batch_bool_correct (mat : Bool → Int)
    (hmat : ∀ b, decide (mat b ≠ 0) = b) (self mem : List Bool)
    (h : self.length ≤ mem.length) :
    store mat self mem = self ++ mem.drop self.length := by
  unfold store
  have hlen : self.length = (self.map mat).length := by simp
  rw [hlen, foldl_set_range _ (self.map mat).length mem (by simpa using h)]
  rw [map_range_getD (fun x => decide (x ≠ 0)) (self.map mat) 0,
    List.map_map]
  have hid : ((fun x => decide (x ≠ 0)) ∘ mat) = id := funext fun b => hmat b
  rw [hid, List.map_id]

theorem store_batch_bool_correct_witness :
    (∀ b, decide ((if b then (-1 : Int) else 0) ≠ 0) = b) ∧
    ([true, false, true] : List Bool).length ≤
      ([false, false, false, false] : List Bool).length ∧
    store (fun b => if b then (-1 : Int) else 0) [true, false, true]
        [false, false, false, false]
      = [true, false, true] ++ ([false, false, false, false] : List Bool).drop 3 :=
  ⟨by decide, by decide,
    store_batch_bool_correct (fun b => if b then (-1 : Int) else 0) (by decide)
      [true, false, true] [false, false, false, false] (by decide)⟩

/-- C10: at rotation index 0, `extract_pair` copies every lane of
`other` and none of `self`: the result is exactly `other` (every
scratch cell written), independent of the value of `self`. -/
theorem extract_pair_zero_eq_other [Inhabited α] (self other : List α)
    (h : self.length = other.length) :
    extract_pair self other 0 = other.map some := by
  unfold extract_pair
  have hf : (fun (buf : List (Option α)) (j : Nat) =>
        let buf := buf.set j (some (other.getD (0 + j) default));
        if j < 0 then
          buf.set (self.length - 1 - j) (some (self.getD (0 - 1 - j) default))
        else buf)
      = fun (buf : List (Option α)) (j : Nat) =>
        buf.set j (some (other.getD j default)) := by
    funext buf j
    simp
  simp only [Nat.sub_zero, hf]
  rw [foldl_set_range (fun j => some (other.getD j default)) self.length
      (List.replicate self.length none) (by simp)]
  simp only [List.drop_replicate, Nat.sub_self, List.replicate_zero,
    List.append_nil, h]
  exact map_range_getD some other default

theorem extract_pair_zero_eq_other_witness :
    ([7, 8, 9] : List Nat).length = ([10, 11, 12] : List Nat).length ∧
    extract_pair ([7, 8, 9] : List Nat) [10, 11, 12] 0
      = [some 10, some 11, some 12] :=
  ⟨by decide, extract_pair_zero_eq_other [7, 8, 9] [10, 11, 12] (by decide)⟩

end Xsimd
